import Mathlib

/-!
# Verification of the voice-interaction state machine of `vivica-chat-companion`

This development gives a shallow embedding of the module `src/js/voice-mode.js`
(speech recognition / text-to-speech orchestration) together with the RMS audio
level computation shared with `src/hooks/useVoice.tsx`, and proves properties of
the embedded code.

The module-level mutable variables of `voice-mode.js` become the fields of a
state structure `VM.S`; each JavaScript function or event handler becomes a
Lean function `S → S × List Obs`, where `Obs` records the externally observable
actions (host callbacks, platform API calls, toasts).  Platform-delivered
events (recognition results, synthesis lifecycle events, the silence timeout)
are the alphabet `PEvent` of a step function `handle`; a platform-realistic
trace is one in which every event is `enabled` when it is processed (`wf`).
-/

namespace VM

/-- Listening-state strings passed to `onListenStateChange` in the source
(`'listening'`, `'idle'`, `'speaking'`). We keep them as strings, as in the
code. -/
abbrev LStr := String

/-- Externally observable actions of the module: host callbacks from
`vivicaVoiceModeConfig`, calls into the platform speech/audio APIs, and
toasts.  Each constructor corresponds to one line of `voice-mode.js`. -/
inductive Obs where
  /-- `vivicaVoiceModeConfig.onSpeechResult(t, isFinal)` -/
  | speechResult (t : String) (isFinal : Bool)
  /-- `vivicaVoiceModeConfig.onSpeechStart()` -/
  | speechStart
  /-- `vivicaVoiceModeConfig.onSpeechEnd()` -/
  | speechEnd
  /-- `vivicaVoiceModeConfig.onSpeechError(e)` -/
  | speechError
  /-- `vivicaVoiceModeConfig.onSpeakingStart()` -/
  | speakingStart
  /-- `vivicaVoiceModeConfig.onSpeakingEnd()` -/
  | speakingEnd
  /-- `vivicaVoiceModeConfig.onSpeakingError(e)` -/
  | speakingError
  /-- `vivicaVoiceModeConfig.onListenStateChange(s)` -/
  | listenState (s : LStr)
  /-- `vivicaVoiceModeConfig.onVisualizerData(q)` -/
  | visualizerData (q : ℚ)
  /-- `window.showToast(m)` -/
  | toast (m : String)
  /-- `new Recog()` in `initSpeechRecognition` -/
  | recogCreate
  /-- `recognition.start()` -/
  | recogStart
  /-- `recognition.stop()` -/
  | recogStop
  /-- `navigator.mediaDevices.getUserMedia(...)` in `startAudioVisualization` -/
  | micAcquire
  /-- `setInterval(...)` in `startAudioVisualization` -/
  | intervalSet
  /-- `clearInterval(volumeInterval)` in `stopAudioVisualization` -/
  | intervalClear
  /-- `audioStream.getTracks().forEach(t => t.stop())` -/
  | trackStop
  /-- `audioCtx.close()` -/
  | ctxClose
  /-- `synth.speak(u)` for utterance number `u` -/
  | synthSpeak (u : Nat)
  /-- `synth.cancel()` -/
  | synthCancel
deriving DecidableEq, Repr

/-- Phase of the platform speech-recognition object: `off` before `start()`
and after the `end` event, `starting` between `start()` and the `start`
event, `running` while recognizing, `stopping` after `stop()` (or an error)
until the `end` event. -/
inductive RecogPhase where
  | off | starting | running | stopping
deriving DecidableEq, Repr

/-- The module state: one field per module-level mutable variable of
`voice-mode.js` (plus the platform-side recognizer/synthesizer state and a
clock used by the silence timer).  The fields `supported`, `micPermitted`,
`visSupported` and `synthSupported` model fixed platform capabilities
(`'SpeechRecognition' in window`, microphone permission, `mediaDevices`,
`window.speechSynthesis`). -/
structure S where
  supported : Bool
  micPermitted : Bool
  visSupported : Bool
  synthSupported : Bool
  /-- the `recognition` variable has been assigned (`initSpeechRecognition` ran) -/
  recognitionInit : Bool
  isListening : Bool
  isSpeaking : Bool
  isProcessing : Bool
  /-- `silenceTimer`: `some d` is a pending timeout with deadline `d`. -/
  silenceDeadline : Option Nat
  handledSpeech : Bool
  voiceModeActive : Bool
  userStopped : Bool
  /-- `audioCtx !== null` -/
  audioCtx : Bool
  /-- `audioStream !== null` -/
  audioStream : Bool
  /-- `volumeInterval !== null` -/
  volumeInterval : Bool
  /-- `currentSpeechUtterance`: the number of the last created utterance. -/
  currentUtt : Option Nat
  /-- counter supplying fresh utterance numbers -/
  nextUtt : Nat
  recogPhase : RecogPhase
  /-- utterances submitted via `synth.speak` whose `start` event has not fired -/
  synthQueue : List Nat
  /-- the utterance currently being spoken by the platform, if any -/
  synthActive : Option Nat
  /-- current time in milliseconds -/
  now : Nat
deriving DecidableEq, Repr

/-- `SILENCE_TIMEOUT = 3000`. -/
def SILENCE_TIMEOUT : Nat := 3000

/-- `clearSilenceTimer()`: `clearTimeout` and null the timer variable. -/
def clearSilenceTimer (s : S) : S :=
  { s with silenceDeadline := none }

/-- `resetSilenceTimer()`: clear, then `setTimeout(..., SILENCE_TIMEOUT)`. -/
def resetSilenceTimer (s : S) : S :=
  { clearSilenceTimer s with silenceDeadline := some (s.now + SILENCE_TIMEOUT) }

/-- `stopAudioVisualization()`: clear the polling interval, stop the media
stream tracks, close the audio context (each action taken only when the
resource is present; the three variables are null afterwards in every case),
then deliver a final `onVisualizerData(0)`. -/
def stopAudioVisualization (s : S) : S × List Obs :=
  ({ s with volumeInterval := false, audioStream := false, audioCtx := false },
    (if s.volumeInterval then [Obs.intervalClear] else [])
      ++ (if s.audioStream then [Obs.trackStop] else [])
      ++ (if s.audioCtx then [Obs.ctxClose] else [])
      ++ [Obs.visualizerData 0])

/-- `startAudioVisualization()`: if `mediaDevices` is unavailable the function
just logs and returns; otherwise it requests the microphone, builds the audio
context and analyser, and starts the 50 ms polling interval.  A `getUserMedia`
failure is caught (toast), acquiring nothing. -/
def startAudioVisualization (s : S) : S × List Obs :=
  if ¬s.visSupported then (s, [])
  else if s.micPermitted then
    ({ s with audioStream := true, audioCtx := true, volumeInterval := true },
      [Obs.micAcquire, Obs.intervalSet])
  else (s, [Obs.toast "Audio error"])

/-- `recognition.stop()` as seen by the platform object: a live recognizer
moves to `stopping`; calling stop on an inactive one does nothing. -/
def recogStopPhase : RecogPhase → RecogPhase
  | RecogPhase.starting => RecogPhase.stopping
  | RecogPhase.running => RecogPhase.stopping
  | p => p

/-- `stopListening()`: guarded by `recognition && isListening`; stops the
recognizer, clears flags and the silence timer, tears down visualization and
reports `'idle'`. -/
def stopListening (s : S) : S × List Obs :=
  if s.recognitionInit ∧ s.isListening then
    let s1 := { s with recogPhase := recogStopPhase s.recogPhase,
                       isListening := false, userStopped := true,
                       silenceDeadline := none }
    ((stopAudioVisualization s1).1,
      [Obs.recogStop] ++ (stopAudioVisualization s1).2 ++ [Obs.listenState "idle"])
  else (s, [])

/-- The toast text of the unsupported-platform early return in
`startListening`. -/
def unsupportedMsg : String :=
  "Voice mode not supported on this device/browser. Please use Chrome or Edge."

/-- `initSpeechRecognition()`: if the platform supports recognition, create
the recognizer and install the handlers; otherwise warn with a toast. -/
def initSpeechRecognition (s : S) : S × List Obs :=
  if s.supported then ({ s with recognitionInit := true }, [Obs.recogCreate])
  else (s, [Obs.toast unsupportedMsg])

/-- `startListening()`: early return with a toast when recognition is
unsupported; lazily initialize the recognizer; then, if a recognizer exists
and we are not listening, reset the per-session flags, require microphone
permission, start visualization, and call `recognition.start()`.  A permission
failure or a `start()` throw (recognizer not torn down yet) lands in the
`catch` block: error callback, `'idle'`, visualization teardown, toast. -/
def startListening (s : S) : S × List Obs :=
  if ¬s.supported then (s, [Obs.toast unsupportedMsg])
  else
    let p0 := if ¬s.recognitionInit then initSpeechRecognition s else (s, [])
    if p0.1.recognitionInit ∧ ¬p0.1.isListening then
      let s1 := { p0.1 with userStopped := false, handledSpeech := false }
      if ¬s1.micPermitted then
        ((stopAudioVisualization s1).1,
          p0.2 ++ [Obs.speechError, Obs.listenState "idle"]
            ++ (stopAudioVisualization s1).2
            ++ [Obs.toast "Voice error: Microphone permission denied. Please try Chrome or Edge."])
      else
        let s2 := (startAudioVisualization s1).1
        if s2.recogPhase = RecogPhase.off then
          ({ s2 with recogPhase := RecogPhase.starting },
            p0.2 ++ (startAudioVisualization s1).2 ++ [Obs.recogStart])
        else
          ((stopAudioVisualization s2).1,
            p0.2 ++ (startAudioVisualization s1).2
              ++ [Obs.speechError, Obs.listenState "idle"]
              ++ (stopAudioVisualization s2).2
              ++ [Obs.toast "Voice error: recognition already started. Please try Chrome or Edge."])
    else p0

/-- `speak(text)`: cancel the current utterance when one exists *and*
`isSpeaking` is set; then create a fresh utterance and submit it with
`synth.speak`.  When `window.speechSynthesis` is unavailable the promise is
rejected via `onSpeakingError`. -/
def speakCall (s : S) : S × List Obs :=
  if ¬s.synthSupported then (s, [Obs.speakingError])
  else
    let p1 := if s.currentUtt.isSome ∧ s.isSpeaking
      then ({ s with synthQueue := [], synthActive := none }, [Obs.synthCancel])
      else (s, [])
    let u := p1.1.nextUtt
    ({ p1.1 with currentUtt := some u, nextUtt := u + 1,
                 synthQueue := p1.1.synthQueue ++ [u] },
      p1.2 ++ [Obs.synthSpeak u])

/-- `stopSpeaking()`: `synth.cancel()` guarded by `synth && isSpeaking`. -/
def stopSpeaking (s : S) : S × List Obs :=
  if s.synthSupported ∧ s.isSpeaking then
    ({ s with synthQueue := [], synthActive := none, isSpeaking := false },
      [Obs.synthCancel, Obs.speakingEnd, Obs.listenState "idle"])
  else (s, [])

/-- One batch of platform recognition results: the list of
`(transcript, isFinal)` pairs of the `event.results` delivered by a single
`onresult` event. -/
abbrev ResultBatch := List (String × Bool)

/-- `finalTranscript`: concatenation of the final transcripts of a batch. -/
def finalTranscript (rs : ResultBatch) : String :=
  rs.foldl (fun acc r => if r.2 then acc ++ r.1 else acc) ""

/-- `interimTranscript`: concatenation of the interim transcripts of a batch. -/
def interimTranscript (rs : ResultBatch) : String :=
  rs.foldl (fun acc r => if r.2 then acc else acc ++ r.1) ""

/-- `recognition.onresult`: ignore everything once `handledSpeech` is set;
otherwise reset the silence timer, split the batch into final and interim
text, and either deliver the final transcript (setting `handledSpeech` and
stopping the session) or deliver the interim transcript. -/
def onResult (s : S) (rs : ResultBatch) : S × List Obs :=
  if s.handledSpeech then (s, [])
  else
    let s1 := resetSilenceTimer s
    if finalTranscript rs ≠ "" then
      let s2 := { s1 with handledSpeech := true }
      ((stopListening s2).1,
        [Obs.speechResult (finalTranscript rs).trim true] ++ (stopListening s2).2)
    else
      (s1, [Obs.speechResult (interimTranscript rs).trim false])

/-- `recognition.onstart`: mark listening, notify the host, start the
silence timer. -/
def onRecogStart (s : S) : S × List Obs :=
  let s1 := resetSilenceTimer { s with isListening := true,
                                       recogPhase := RecogPhase.running }
  (s1, [Obs.speechStart, Obs.listenState "listening"])

/-- `recognition.onerror`: clear the listening flags, set `userStopped`
(suppressing the auto-restart in the pending `onend`), clear the timer,
notify, and tear down visualization.  The platform will still deliver an
`end` event, so the recognizer moves to `stopping`. -/
def onRecogError (s : S) : S × List Obs :=
  let s1 := { s with isListening := false, handledSpeech := false,
                     userStopped := true, silenceDeadline := none,
                     recogPhase := RecogPhase.stopping }
  ((stopAudioVisualization s1).1,
    [Obs.speechError, Obs.listenState "idle"] ++ (stopAudioVisualization s1).2
      ++ [Obs.toast "Voice error. Please try Chrome or Edge."])

/-- `recognition.onend`: clear the listening flags and the timer, notify,
tear down visualization, and auto-restart via `startListening()` when the
voice-mode UI is still active and the stop was not user-initiated. -/
def onRecogEnd (s : S) : S × List Obs :=
  let s1 := { s with isListening := false, handledSpeech := false,
                     silenceDeadline := none, recogPhase := RecogPhase.off }
  let s2 := (stopAudioVisualization s1).1
  let pre := [Obs.speechEnd, Obs.listenState "idle"] ++ (stopAudioVisualization s1).2
  if s2.voiceModeActive ∧ ¬s2.userStopped then
    ((startListening s2).1, pre ++ (startListening s2).2)
  else (s2, pre)

/-- The silence-timeout callback: the timeout has fired (so it is no longer
pending) and calls `stopListening()`. -/
def onTimerFire (s : S) : S × List Obs :=
  stopListening { s with silenceDeadline := none }

/-- `currentSpeechUtterance.onstart`: set `isSpeaking`, notify the host that
speech started, and *then* stop listening. -/
def onSynthStart (s : S) (u : Nat) : S × List Obs :=
  let s1 := { s with isSpeaking := true, synthActive := some u,
                     synthQueue := s.synthQueue.drop 1 }
  ((stopListening s1).1,
    [Obs.speakingStart, Obs.listenState "speaking"] ++ (stopListening s1).2)

/-- `currentSpeechUtterance.onend`: clear `isSpeaking`, notify, clear the
processing flag, resolve the promise, and restart listening when the
voice-mode UI is active. -/
def onSynthEnd (s : S) : S × List Obs :=
  let s1 := { s with isSpeaking := false, synthActive := none,
                     isProcessing := false }
  let pre := [Obs.speakingEnd, Obs.listenState "idle"]
  if s1.voiceModeActive then
    ((startListening s1).1, pre ++ (startListening s1).2)
  else (s1, pre)

/-- `currentSpeechUtterance.onerror`: clear `isSpeaking`, notify, toast,
reject the promise.  No restart. -/
def onSynthError (s : S) : S × List Obs :=
  ({ s with isSpeaking := false, synthActive := none },
    [Obs.speakingError, Obs.listenState "idle", Obs.toast "Speech error"])

/-- Input alphabet of the machine: host/user calls into the module and
asynchronous platform events delivered by the browser event loop. -/
inductive PEvent where
  /-- host calls `startListening()` -/
  | userStart
  /-- host calls `stopListening()` -/
  | userStop
  /-- host calls `setVoiceModeActive(b)` (opening/closing the session) -/
  | setActive (b : Bool)
  /-- host calls `speak(text)` -/
  | speak (text : String)
  /-- host calls `stopSpeaking()` -/
  | stopSpeak
  /-- platform delivers `recognition.onstart` -/
  | recogOnStart
  /-- platform delivers `recognition.onresult` with the given batch -/
  | recogOnResult (rs : ResultBatch)
  /-- platform delivers `recognition.onerror` -/
  | recogOnError
  /-- platform delivers `recognition.onend` -/
  | recogOnEnd
  /-- the silence timeout callback runs -/
  | timerFire
  /-- platform delivers `utterance.onstart` for utterance `u` -/
  | synthOnStart (u : Nat)
  /-- platform delivers `utterance.onend` for utterance `u` -/
  | synthOnEnd (u : Nat)
  /-- platform delivers `utterance.onerror` for utterance `u` -/
  | synthOnError (u : Nat)
  /-- `dt` milliseconds of real time pass -/
  | tick (dt : Nat)
deriving DecidableEq, Repr

/-- Process one event: run the corresponding handler of `voice-mode.js`
atomically (the browser event loop is single-threaded). -/
def handle (s : S) : PEvent → S × List Obs
  | PEvent.userStart => startListening s
  | PEvent.userStop => stopListening s
  | PEvent.setActive b => ({ s with voiceModeActive := b }, [])
  | PEvent.speak _ => speakCall s
  | PEvent.stopSpeak => stopSpeaking s
  | PEvent.recogOnStart => onRecogStart s
  | PEvent.recogOnResult rs => onResult s rs
  | PEvent.recogOnError => onRecogError s
  | PEvent.recogOnEnd => onRecogEnd s
  | PEvent.timerFire => onTimerFire s
  | PEvent.synthOnStart u => onSynthStart s u
  | PEvent.synthOnEnd _ => onSynthEnd s
  | PEvent.synthOnError _ => onSynthError s
  | PEvent.tick dt => ({ s with now := s.now + dt }, [])

/-- Run a trace of events, collecting the observations in order. -/
def run (s : S) : List PEvent → S × List Obs
  | [] => (s, [])
  | e :: es =>
    ((run (handle s e).1 es).1, (handle s e).2 ++ (run (handle s e).1 es).2)

/-- Which events the platform can actually deliver in a given state: the
recognizer fires `start` only while starting, results and `end` only while
live, the synthesizer starts only the head of its queue and ends only the
active utterance, and a timeout fires only when pending and due.  Host calls
and clock ticks are always possible. -/
def enabled (s : S) : PEvent → Bool
  | PEvent.recogOnStart => s.recogPhase = RecogPhase.starting
  | PEvent.recogOnResult _ =>
      s.recogPhase = RecogPhase.running ∨ s.recogPhase = RecogPhase.stopping
  | PEvent.recogOnError => ¬(s.recogPhase = RecogPhase.off)
  | PEvent.recogOnEnd =>
      s.recogPhase = RecogPhase.running ∨ s.recogPhase = RecogPhase.stopping
  | PEvent.timerFire =>
      match s.silenceDeadline with
      | some d => d ≤ s.now
      | none => false
  | PEvent.synthOnStart u => s.synthActive = none ∧ s.synthQueue.head? = some u
  | PEvent.synthOnEnd u => s.synthActive = some u
  | PEvent.synthOnError u => s.synthActive = some u
  | _ => true

/-- A trace is well formed from `s` when every event is enabled at the
state where it is processed. -/
def wf (s : S) : List PEvent → Bool
  | [] => true
  | e :: es => enabled s e && wf (handle s e).1 es

/-- The initial module state, parameterized by the platform capabilities.
All flags start clear, no timer is pending, and no resource is held, as in
the freshly loaded module. -/
def init (supported micPermitted visSupported synthSupported : Bool) : S :=
  { supported := supported, micPermitted := micPermitted,
    visSupported := visSupported, synthSupported := synthSupported,
    recognitionInit := false, isListening := false, isSpeaking := false,
    isProcessing := false, silenceDeadline := none, handledSpeech := false,
    voiceModeActive := false, userStopped := false, audioCtx := false,
    audioStream := false, volumeInterval := false, currentUtt := none,
    nextUtt := 0, recogPhase := RecogPhase.off, synthQueue := [],
    synthActive := none, now := 0 }

/-- The fully supported platform, used for concrete runs. -/
def init0 : S := init true true true true

end VM

namespace RMS

/-- `(dataArray[i] - 128) / 128`: one byte sample centered to `[-1, 1)`. -/
def centered (x : ℕ) : ℚ := ((x : ℚ) - 128) / 128

/-- `sum += v * v` over the buffer. -/
def sumSquares (b : List ℕ) : ℚ :=
  (b.map (fun x => centered x * centered x)).sum

/-- `sum / dataArray.length`, the mean square of the centered samples; its
square root is the value passed to `onVisualizerData` in
`startAudioVisualization` (`voice-mode.js`) and, scaled by ten and capped at
one, the value passed to `setAudioLevel` in `monitorAudioLevel`
(`useVoice.tsx`). -/
def meanSquare (b : List ℕ) : ℚ :=
  sumSquares b / b.length

end RMS

namespace VM

/-! ## General lemmas about the machine -/

theorem run_append (s : S) (es1 es2 : List PEvent) :
    run s (es1 ++ es2) =
      ((run (run s es1).1 es2).1, (run s es1).2 ++ (run (run s es1).1 es2).2) := by
  induction es1 generalizing s with
  | nil => simp [run]
  | cons e es ih => simp [run, ih]

theorem startListening_silenceDeadline (s : S) :
    (startListening s).1.silenceDeadline = s.silenceDeadline := by
  by_cases h1 : s.supported <;> by_cases h2 : s.recognitionInit <;>
  by_cases h3 : s.isListening <;> by_cases h4 : s.micPermitted <;>
  by_cases h5 : s.visSupported <;> by_cases h6 : s.recogPhase = RecogPhase.off <;>
  simp [startListening, initSpeechRecognition, startAudioVisualization,
    stopAudioVisualization, h1, h2, h3, h4, h5, h6]

theorem startListening_phase (s : S) :
    (startListening s).1.recogPhase = RecogPhase.starting ∨
      (startListening s).1.recogPhase = s.recogPhase := by
  by_cases h1 : s.supported <;> by_cases h2 : s.recognitionInit <;>
  by_cases h3 : s.isListening <;> by_cases h4 : s.micPermitted <;>
  by_cases h5 : s.visSupported <;> by_cases h6 : s.recogPhase = RecogPhase.off <;>
  simp [startListening, initSpeechRecognition, startAudioVisualization,
    stopAudioVisualization, h1, h2, h3, h4, h5, h6]

theorem recogStopPhase_ne_starting (p : RecogPhase) :
    recogStopPhase p ≠ RecogPhase.starting := by
  cases p <;> simp [recogStopPhase]

theorem stopListening_cases (s : S) :
    ((stopListening s).1.silenceDeadline = none ∧
      (stopListening s).1.userStopped = true ∧
      (stopListening s).1.recogPhase = recogStopPhase s.recogPhase ∧
      (stopListening s).1.isListening = false) ∨ stopListening s = (s, []) := by
  by_cases h : s.recognitionInit = true ∧ s.isListening = true
  · left
    simp [stopListening, stopAudioVisualization, h]
  · right
    unfold stopListening
    rw [if_neg h]

theorem stopListening_no_recogStart (s : S) :
    Obs.recogStart ∉ (stopListening s).2 := by
  by_cases h : s.recognitionInit = true ∧ s.isListening = true <;>
    by_cases h1 : s.volumeInterval <;> by_cases h2 : s.audioStream <;>
    by_cases h3 : s.audioCtx <;>
  simp [stopListening, stopAudioVisualization, h, h1, h2, h3]

end VM

namespace RMS

theorem centered_sq_le_one {x : ℕ} (h : x ≤ 255) : centered x * centered x ≤ 1 := by
  unfold centered
  have hx : (x : ℚ) ≤ 255 := by exact_mod_cast h
  have hx0 : (0 : ℚ) ≤ (x : ℚ) := by positivity
  rw [div_mul_div_comm, div_le_one (by norm_num)]
  nlinarith

theorem sumSquares_nonneg (b : List ℕ) : 0 ≤ sumSquares b := by
  induction b with
  | nil => simp [sumSquares]
  | cons x b ih =>
    simp only [sumSquares, List.map_cons, List.sum_cons] at ih ⊢
    have := mul_self_nonneg (centered x)
    linarith

theorem sumSquares_le_length (b : List ℕ) (h : ∀ x ∈ b, x ≤ 255) :
    sumSquares b ≤ (b.length : ℚ) := by
  induction b with
  | nil => simp [sumSquares]
  | cons x b ih =>
    simp only [sumSquares, List.map_cons, List.sum_cons, List.length_cons] at ih ⊢
    have h1 := centered_sq_le_one (h x (by simp))
    have h2 := ih (fun y hy => h y (by simp [hy]))
    push_cast
    linarith

theorem meanSquare_nonneg (b : List ℕ) : 0 ≤ meanSquare b := by
  unfold meanSquare
  exact div_nonneg (sumSquares_nonneg b) (by positivity)

theorem meanSquare_le_one (b : List ℕ) (hb : b ≠ []) (h : ∀ x ∈ b, x ≤ 255) :
    meanSquare b ≤ 1 := by
  unfold meanSquare
  have hl : (0 : ℚ) < (b.length : ℚ) := by
    have := List.length_pos.mpr hb
    exact_mod_cast this
  rw [div_le_one hl]
  exact sumSquares_le_length b h

end RMS

namespace VM

/-! ## Concrete traces used by counterexamples and witnesses -/

/-- Open the voice session, start listening, recognizer confirms. -/
def trListen : List PEvent :=
  [PEvent.setActive true, PEvent.userStart, PEvent.recogOnStart]

/-- ... then the host speaks a reply and synthesis starts. -/
def trSpeakStart : List PEvent :=
  trListen ++ [PEvent.speak "hi", PEvent.synthOnStart 0]

/-- ... then the pending recognition `end` event arrives during speech. -/
def trSpeaking : List PEvent := trSpeakStart ++ [PEvent.recogOnEnd]

/-- Two `speak()` calls in a row, before the first utterance has started. -/
def trDoubleSpeak : List PEvent :=
  [PEvent.setActive true, PEvent.speak "A", PEvent.speak "B"]

/-- A final result followed by a duplicate result event. -/
def trDupFinal : List PEvent :=
  trListen ++ [PEvent.recogOnResult [("hi", true)],
               PEvent.recogOnResult [("again", true)]]

/-- The initial state on a platform without speech recognition. -/
def sUnsupported : S := init false true true true

end VM

open VM RMS in
/-- **C6.** For every nonempty raw sample buffer of bytes (values 0..255,
including all-max, all-min and all-silence buffers), the audio level
delivered to the visualizer callback — the square root of `meanSquare`, the
RMS of the centered samples computed in `startAudioVisualization`
(`voice-mode.js`) — lies in the closed interval [0,1]; so does the scaled and
capped variant `min (rms * 10) 1` delivered by `monitorAudioLevel`
(`useVoice.tsx`). -/
theorem rms_audio_level_in_unit_interval (b : List ℕ) (hb : b ≠ [])
    (h : ∀ x ∈ b, x ≤ 255) :
    (0 ≤ Real.sqrt (meanSquare b) ∧ Real.sqrt (meanSquare b) ≤ 1) ∧
    (0 ≤ min (Real.sqrt (meanSquare b) * 10) 1 ∧
      min (Real.sqrt (meanSquare b) * 10) 1 ≤ 1) := by
  have h1 : (0 : ℝ) ≤ Real.sqrt (meanSquare b) := Real.sqrt_nonneg _
  have h2 : Real.sqrt (meanSquare b) ≤ 1 := by
    rw [Real.sqrt_le_one]
    exact_mod_cast meanSquare_le_one b hb h
  refine ⟨⟨h1, h2⟩, ⟨le_min (by positivity) (by norm_num), min_le_right _ _⟩⟩

open VM RMS in
/-- Witness for C6 at the buffers named by the claim: all-silence (128),
all-min (0) and all-max (255) samples. -/
theorem rms_audio_level_in_unit_interval_witness :
    (0 ≤ Real.sqrt (meanSquare [128, 128, 128]) ∧
      Real.sqrt (meanSquare [128, 128, 128]) ≤ 1) ∧
    (0 ≤ Real.sqrt (meanSquare [0, 0, 0]) ∧ Real.sqrt (meanSquare [0, 0, 0]) ≤ 1) ∧
    (0 ≤ Real.sqrt (meanSquare [255, 255, 255]) ∧
      Real.sqrt (meanSquare [255, 255, 255]) ≤ 1) :=
  ⟨(rms_audio_level_in_unit_interval [128, 128, 128] (by decide) (by decide)).1,
   (rms_audio_level_in_unit_interval [0, 0, 0] (by decide) (by decide)).1,
   (rms_audio_level_in_unit_interval [255, 255, 255] (by decide) (by decide)).1⟩

open VM in
/-- **C7, counterexample.** `speak("A")` submits utterance 0; a second call
`speak("B")` arrives before utterance 0 has started.  Utterance 0 is in
flight (submitted, not ended), yet no `synth.cancel()` is issued and both
utterances end up queued: the claim that any in-flight utterance is canceled
(no queue forms) is false on this run. -/
theorem speak_queues_pending_utterance_without_cancel :
    wf init0 trDoubleSpeak = true ∧
    Obs.synthSpeak 0 ∈ (run init0 trDoubleSpeak).2 ∧
    Obs.synthCancel ∉ (run init0 trDoubleSpeak).2 ∧
    (run init0 trDoubleSpeak).1.synthQueue = [0, 1] := by decide

open VM in
/-- **C7, amended.** `speak(text)` cancels the previous utterance if and only
if one exists *and* its start event has been observed (`isSpeaking`); an
utterance that is submitted but has not yet started is not canceled, and the
new utterance queues behind it (otherwise the queue is emptied first, so the
last call wins). -/
theorem speak_cancel_iff_speaking (s : S) (h : s.synthSupported = true) :
    (Obs.synthCancel ∈ (speakCall s).2 ↔
      (s.currentUtt.isSome ∧ s.isSpeaking = true)) ∧
    (speakCall s).1.synthQueue =
      (if s.currentUtt.isSome ∧ s.isSpeaking = true then [] else s.synthQueue)
        ++ [s.nextUtt] ∧
    Obs.synthSpeak s.nextUtt ∈ (speakCall s).2 := by
  by_cases hc : s.currentUtt.isSome ∧ s.isSpeaking = true <;>
    simp [speakCall, h, hc]

open VM in
/-- Witness for C7 (amended): in the state after `trSpeakStart`, where
utterance 0 is being spoken, a new `speak` call cancels it. -/
theorem speak_cancel_iff_speaking_witness :
    Obs.synthCancel ∈ (speakCall (run init0 trSpeakStart).1).2 :=
  ((speak_cancel_iff_speaking (run init0 trSpeakStart).1 (by decide)).1).mpr
    (by decide)

open VM in
/-- **C8.** Idempotence: `stopListening()` when recognition is not active
returns the state unchanged and fires no callback; `startListening()` while
already listening is a no-op acquiring no recognizer or microphone resource;
stopping the audio-level monitor when it holds nothing touches no resource
(it only reports a zero level). -/
theorem voice_control_idempotence (s : S) :
    (¬(s.recognitionInit = true ∧ s.isListening = true) →
      stopListening s = (s, [])) ∧
    (s.supported = true → s.recognitionInit = true → s.isListening = true →
      startListening s = (s, [])) ∧
    (s.volumeInterval = false → s.audioStream = false → s.audioCtx = false →
      stopAudioVisualization s = (s, [Obs.visualizerData 0])) := by
  refine ⟨fun h => ?_, fun h1 h2 h3 => ?_, fun h1 h2 h3 => ?_⟩
  · unfold stopListening
    rw [if_neg h]
  · simp [startListening, h1, h2, h3]
  · cases s
    simp_all [stopAudioVisualization]

open VM in
/-- Witness for C8 at concrete states: the fresh state (not listening,
no resources) and the state after `trListen` (listening). -/
theorem voice_control_idempotence_witness :
    stopListening init0 = (init0, []) ∧
    startListening (run init0 trListen).1 = ((run init0 trListen).1, []) ∧
    stopAudioVisualization init0 = (init0, [Obs.visualizerData 0]) :=
  ⟨(voice_control_idempotence init0).1 (by decide),
   (voice_control_idempotence (run init0 trListen).1).2.1
     (by decide) (by decide) (by decide),
   (voice_control_idempotence init0).2.2 (by decide) (by decide) (by decide)⟩

open VM in
/-- **C9, counterexample.** On a platform without speech recognition, two
consecutive `startListening()` calls each show the user-visible toast and
fire *no* error callback: the claimed single non-recoverable error callback
never fires (count 0, not 1), and the user-visible message repeats on every
call rather than exactly once. -/
theorem unsupported_start_fires_no_error_callback :
    wf sUnsupported [PEvent.userStart, PEvent.userStart] = true ∧
    (run sUnsupported [PEvent.userStart, PEvent.userStart]).2 =
      [Obs.toast unsupportedMsg, Obs.toast unsupportedMsg] ∧
    Obs.speechError ∉ (run sUnsupported [PEvent.userStart, PEvent.userStart]).2 := by
  refine ⟨by decide, by decide, by decide⟩

open VM in
/-- **C9, amended.** When the platform reports speech recognition as
unsupported, every `startListening()` call returns immediately after showing
the user-visible toast: the state is unchanged (so a session that was Idle
stays Idle), no recognizer is created or started, no microphone is acquired,
and no error callback fires — on every call, not exactly once. -/
theorem unsupported_start_toast_and_noop (s : S) (h : s.supported = false) :
    handle s PEvent.userStart = (s, [Obs.toast unsupportedMsg]) ∧
    ∀ n : Nat, run s (List.replicate n PEvent.userStart) =
      (s, List.replicate n (Obs.toast unsupportedMsg)) := by
  have h1 : startListening s = (s, [Obs.toast unsupportedMsg]) := by
    unfold startListening
    rw [if_pos (by simp [h])]
  refine ⟨h1, fun n => ?_⟩
  induction n with
  | zero => simp [run]
  | succ n ih => simp [List.replicate_succ, run, handle, h1, ih]

open VM in
/-- Witness for C9 (amended) at the unsupported initial state, three calls. -/
theorem unsupported_start_toast_and_noop_witness :
    run sUnsupported (List.replicate 3 PEvent.userStart) =
      (sUnsupported, List.replicate 3 (Obs.toast unsupportedMsg)) :=
  (unsupported_start_toast_and_noop sUnsupported (by decide)).2 3

namespace VM

/-- The last audio level delivered to the visualizer callback in a list of
observations. -/
def lastLevel (l : List Obs) : Option ℚ :=
  (l.filterMap fun o => match o with
    | Obs.visualizerData q => some q
    | _ => none).getLast?

/-- Does the state hold any audio resource (polling interval, media stream,
audio context)? -/
def holdsAudio (s : S) : Bool := s.volumeInterval || s.audioStream || s.audioCtx

end VM

open VM in
/-- **C4.** While recognition is active, once the silence deadline has
passed with no transcript activity the watchdog may fire; firing it stops
recognition (`recognition.stop()` issued, `isListening` cleared), cancels
the timer, stops the audio-level monitor (all resources released, interval
cleared), and reports the idle state to the host: the session transitions
Listening → Idle. -/
theorem silence_timeout_stops_listening (s : S) (d : Nat)
    (h1 : s.recognitionInit = true) (h2 : s.isListening = true)
    (h3 : s.silenceDeadline = some d) (h4 : d ≤ s.now) :
    enabled s PEvent.timerFire = true ∧
    (handle s PEvent.timerFire).1.isListening = false ∧
    (handle s PEvent.timerFire).1.silenceDeadline = none ∧
    (handle s PEvent.timerFire).1.volumeInterval = false ∧
    (handle s PEvent.timerFire).1.audioStream = false ∧
    (handle s PEvent.timerFire).1.audioCtx = false ∧
    Obs.recogStop ∈ (handle s PEvent.timerFire).2 ∧
    Obs.listenState "idle" ∈ (handle s PEvent.timerFire).2 ∧
    (s.volumeInterval = true → Obs.intervalClear ∈ (handle s PEvent.timerFire).2) := by
  by_cases hv : s.volumeInterval <;> by_cases ha : s.audioStream <;>
    by_cases hc : s.audioCtx <;>
  simp [handle, onTimerFire, stopListening, stopAudioVisualization, enabled,
    h1, h2, h3, h4, hv, ha, hc]

open VM in
/-- Witness for C4: the listening state reached by `trListen` after 3000 ms. -/
theorem silence_timeout_stops_listening_witness :
    Obs.recogStop ∈
      (handle (run init0 (trListen ++ [PEvent.tick 3000])).1 PEvent.timerFire).2 :=
  (silence_timeout_stops_listening (run init0 (trListen ++ [PEvent.tick 3000])).1
    3000 (by decide) (by decide) (by decide) (by decide)).2.2.2.2.2.2.1

open VM in
/-- **C10.** On every path that stops audio visualization — the teardown
itself, an explicit `stopListening`, recognition error, recognition end (when
no auto-restart follows), silence timeout, and a failed `startListening` —
the visualizer callback receives a final level of exactly 0 (emitted last,
after the interval is cleared, the tracks are stopped and the context is
closed), and afterwards no audio resource remains held. -/
theorem stop_paths_release_audio_and_emit_zero (s : S) :
    ((stopAudioVisualization s).1.volumeInterval = false ∧
     (stopAudioVisualization s).1.audioStream = false ∧
     (stopAudioVisualization s).1.audioCtx = false ∧
     (stopAudioVisualization s).2.getLast? = some (Obs.visualizerData 0) ∧
     (s.volumeInterval = true →
       (stopAudioVisualization s).2.head? = some Obs.intervalClear) ∧
     (s.audioStream = true → Obs.trackStop ∈ (stopAudioVisualization s).2) ∧
     (s.audioCtx = true → Obs.ctxClose ∈ (stopAudioVisualization s).2)) ∧
    (s.recognitionInit = true → s.isListening = true →
      holdsAudio (stopListening s).1 = false ∧
      lastLevel (stopListening s).2 = some 0) ∧
    (holdsAudio (onRecogError s).1 = false ∧
      lastLevel (onRecogError s).2 = some 0) ∧
    (s.userStopped = true →
      holdsAudio (onRecogEnd s).1 = false ∧
      lastLevel (onRecogEnd s).2 = some 0) ∧
    (s.recognitionInit = true → s.isListening = true →
      holdsAudio (onTimerFire s).1 = false ∧
      lastLevel (onTimerFire s).2 = some 0) ∧
    (s.supported = true → s.recognitionInit = true → s.isListening = false →
      s.micPermitted = false →
      holdsAudio (startListening s).1 = false ∧
      lastLevel (startListening s).2 = some 0) := by
  refine ⟨?_, fun h1 h2 => ?_, ?_, fun h => ?_, fun h1 h2 => ?_,
    fun h1 h2 h3 h4 => ?_⟩ <;>
  · by_cases hv : s.volumeInterval <;> by_cases ha : s.audioStream <;>
      by_cases hc : s.audioCtx <;>
    simp_all [stopAudioVisualization, stopListening, onRecogError, onRecogEnd,
      onTimerFire, startListening, initSpeechRecognition,
      startAudioVisualization, holdsAudio, lastLevel]

open VM in
/-- Witness for C10 at concrete states: the listening state of `trListen`
(explicit stop, timeout), the speaking state of `trSpeakStart` (recognition
end with `userStopped` set), and a start that fails on microphone denial. -/
theorem stop_paths_release_audio_and_emit_zero_witness :
    (lastLevel (stopListening (run init0 trListen).1).2 = some 0) ∧
    (holdsAudio (onRecogEnd (run init0 trSpeakStart).1).1 = false) ∧
    (lastLevel (startListening
        (run (init true false true true) [PEvent.userStart]).1).2 = some 0) :=
  ⟨((stop_paths_release_audio_and_emit_zero (run init0 trListen).1).2.1
      (by decide) (by decide)).2,
   ((stop_paths_release_audio_and_emit_zero (run init0 trSpeakStart).1).2.2.2.1
      (by decide)).1,
   ((stop_paths_release_audio_and_emit_zero
        (run (init true false true true) [PEvent.userStart]).1).2.2.2.2.2
      (by decide) (by decide) (by decide) (by decide)).2⟩

open VM in
/-- **C1.** When a synthesis utterance ends, the `onend` handler restarts
recognition (issuing `recognition.start()`) if and only if the voice session
is still active — `voiceModeActive`, the flag cleared when the user or host
closes the session — given a healthy platform (recognition supported and
initialized, microphone permitted, recognizer torn down and not listening).
In particular, after the session is closed during synthesis, the arrival of
the synthesis-end event causes no restart and only reports the end of
speech. -/
theorem synthesis_end_restarts_iff_session_active (s : S) (u : Nat)
    (hsup : s.supported = true) (hini : s.recognitionInit = true)
    (hlis : s.isListening = false) (hmic : s.micPermitted = true)
    (hph : s.recogPhase = RecogPhase.off) :
    (Obs.recogStart ∈ (handle s (PEvent.synthOnEnd u)).2 ↔
      s.voiceModeActive = true) ∧
    (s.voiceModeActive = false →
      (handle s (PEvent.synthOnEnd u)).2 =
        [Obs.speakingEnd, Obs.listenState "idle"]) := by
  by_cases hact : s.voiceModeActive <;> by_cases hvis : s.visSupported <;>
    simp [handle, onSynthEnd, startListening, initSpeechRecognition,
      startAudioVisualization, hsup, hini, hlis, hmic, hph, hact, hvis]

open VM in
/-- Witness for C1: after `trSpeaking` (session active, utterance 0 being
spoken, recognizer ended) synthesis end restarts recognition; after
additionally closing the session, it does not. -/
theorem synthesis_end_restarts_iff_session_active_witness :
    Obs.recogStart ∈
      (handle (run init0 trSpeaking).1 (PEvent.synthOnEnd 0)).2 ∧
    (handle (run init0 (trSpeaking ++ [PEvent.setActive false])).1
        (PEvent.synthOnEnd 0)).2 = [Obs.speakingEnd, Obs.listenState "idle"] :=
  ⟨(synthesis_end_restarts_iff_session_active (run init0 trSpeaking).1 0
      (by decide) (by decide) (by decide) (by decide) (by decide)).1.mpr
      (by decide),
   (synthesis_end_restarts_iff_session_active
      (run init0 (trSpeaking ++ [PEvent.setActive false])).1 0
      (by decide) (by decide) (by decide) (by decide) (by decide)).2
      (by decide)⟩

namespace VM

/-- Events other than an explicit host `startListening()` call and the
synthesis-end event (the two places that may legitimately start
recognition). -/
def avoidsRestartTriggers : PEvent → Bool
  | PEvent.userStart => false
  | PEvent.synthOnEnd _ => false
  | _ => true

theorem stopListening_userStopped_true (s : S) (h : s.userStopped = true) :
    (stopListening s).1.userStopped = true := by
  rcases stopListening_cases s with ⟨_, hu, _, _⟩ | hno
  · exact hu
  · rw [hno]
    exact h

theorem stopListening_phase_not_starting (s : S)
    (h : s.recogPhase ≠ RecogPhase.starting) :
    (stopListening s).1.recogPhase ≠ RecogPhase.starting := by
  rcases stopListening_cases s with ⟨_, _, hp, _⟩ | hno
  · exact hp ▸ recogStopPhase_ne_starting _
  · rw [hno]
    exact h

/-- While `userStopped` is set and the recognizer is not in its starting
phase, any enabled event other than a host start or a synthesis end keeps
that invariant and issues no `recognition.start()`. -/
theorem quiet_step (s : S) (e : PEvent) (hen : enabled s e = true)
    (hav : avoidsRestartTriggers e = true)
    (h1 : s.userStopped = true) (h2 : s.recogPhase ≠ RecogPhase.starting) :
    ((handle s e).1.userStopped = true ∧
      (handle s e).1.recogPhase ≠ RecogPhase.starting) ∧
    Obs.recogStart ∉ (handle s e).2 := by
  cases e with
  | userStart => simp [avoidsRestartTriggers] at hav
  | synthOnEnd u => simp [avoidsRestartTriggers] at hav
  | recogOnStart =>
    exfalso
    simp [enabled] at hen
    exact h2 hen
  | userStop =>
    exact ⟨⟨stopListening_userStopped_true s h1,
      stopListening_phase_not_starting s h2⟩, stopListening_no_recogStart s⟩
  | timerFire =>
    exact ⟨⟨stopListening_userStopped_true _ h1,
      stopListening_phase_not_starting _ h2⟩, stopListening_no_recogStart _⟩
  | synthOnStart u =>
    refine ⟨⟨stopListening_userStopped_true _ h1,
      stopListening_phase_not_starting _ h2⟩, ?_⟩
    simp [handle, onSynthStart, stopListening_no_recogStart]
  | recogOnResult rs =>
    by_cases hh : s.handledSpeech = true
    · simp [handle, onResult, hh, h1, h2]
    · by_cases hf : finalTranscript rs = ""
      · simp [handle, onResult, hh, hf, resetSilenceTimer, clearSilenceTimer,
          h1, h2]
      · simp only [handle, onResult, if_neg hh, if_pos hf]
        refine ⟨⟨stopListening_userStopped_true _ h1,
          stopListening_phase_not_starting _ h2⟩, ?_⟩
        simp [stopListening_no_recogStart]
  | recogOnError =>
    by_cases hv : s.volumeInterval <;> by_cases ha : s.audioStream <;>
      by_cases hc : s.audioCtx <;>
    simp [handle, onRecogError, stopAudioVisualization, hv, ha, hc]
  | recogOnEnd =>
    by_cases hv : s.volumeInterval <;> by_cases ha : s.audioStream <;>
      by_cases hc : s.audioCtx <;>
    simp [handle, onRecogEnd, stopAudioVisualization, h1, h2, hv, ha, hc]
  | setActive b => exact ⟨⟨h1, h2⟩, by simp [handle]⟩
  | speak t =>
    by_cases hsy : s.synthSupported = true <;>
      by_cases hc : s.currentUtt.isSome ∧ s.isSpeaking = true <;>
    simp [handle, speakCall, hsy, hc, h1, h2]
  | stopSpeak =>
    by_cases hg : s.synthSupported = true ∧ s.isSpeaking = true <;>
      simp [handle, stopSpeaking, hg, h1, h2]
  | synthOnError u => exact ⟨⟨h1, h2⟩, by simp [handle, onSynthError]⟩
  | tick dt => exact ⟨⟨h1, h2⟩, by simp [handle]⟩

/-- Trace version of `quiet_step`: a well-formed trace without host starts
and synthesis ends never starts recognition from a quiet state. -/
theorem quiet_run (s : S) (es : List PEvent) (hwf : wf s es = true)
    (hav : ∀ e ∈ es, avoidsRestartTriggers e = true)
    (h1 : s.userStopped = true) (h2 : s.recogPhase ≠ RecogPhase.starting) :
    Obs.recogStart ∉ (run s es).2 := by
  induction es generalizing s with
  | nil => simp [run]
  | cons e es ih =>
    rw [wf, Bool.and_eq_true] at hwf
    obtain ⟨⟨q1, q2⟩, hn⟩ :=
      quiet_step s e hwf.1 (hav e (by simp)) h1 h2
    have ih2 := ih (handle s e).1 hwf.2 (fun x hx => hav x (by simp [hx])) q1 q2
    simp only [run, List.mem_append]
    rintro (h | h)
    · exact hn h
    · exact ih2 h

end VM

open VM in
/-- **C2, counterexample.** In the run `trSpeakStart` — `speak()` called
while the session is Listening, then synthesis starts — the host observes
the start of synthesis (`onSpeakingStart`) *before* `recognition.stop()` is
issued: recognition is not stopped before the start of synthesis is
observed, refuting the claimed ordering. -/
theorem speech_stop_after_synthesis_start_observed :
    wf init0 trSpeakStart = true ∧
    Obs.speakingStart ∈ (run init0 trSpeakStart).2 ∧
    Obs.recogStop ∈ (run init0 trSpeakStart).2 ∧
    ¬(List.indexOf Obs.recogStop (run init0 trSpeakStart).2 <
      List.indexOf Obs.speakingStart (run init0 trSpeakStart).2) := by decide

namespace VM

/-- `stopListening()` on an actually-listening state: recognition stopped,
flags and timer cleared, `recognition.stop()` issued. -/
theorem stopListening_active (s : S) (h1 : s.recognitionInit = true)
    (h2 : s.isListening = true) :
    (stopListening s).1.isListening = false ∧
    (stopListening s).1.userStopped = true ∧
    (stopListening s).1.silenceDeadline = none ∧
    (stopListening s).1.recogPhase = recogStopPhase s.recogPhase ∧
    Obs.recogStop ∈ (stopListening s).2 := by
  simp [stopListening, stopAudioVisualization, h1, h2]

end VM

open VM in
/-- **C2, amended.** When synthesis starts while recognition is active, the
`utterance.onstart` handler first reports the start of synthesis to the host
(`onSpeakingStart`, state `'speaking'`) and *then* stops recognition, within
the same atomic handler — so recognition is stopped as a reaction to the
observed synthesis start, not before it; and recognition then stays stopped
(no `recognition.start()` is issued) along any well-formed continuation of
the run that contains no explicit host `startListening()` call and no
synthesis-end event. -/
theorem recognition_stopped_within_synthesis_start (s : S) (u : Nat)
    (es : List PEvent)
    (hini : s.recognitionInit = true) (hlis : s.isListening = true) :
    Obs.recogStop ∈ (handle s (PEvent.synthOnStart u)).2 ∧
    (handle s (PEvent.synthOnStart u)).2.take 2 =
      [Obs.speakingStart, Obs.listenState "speaking"] ∧
    (handle s (PEvent.synthOnStart u)).1.isListening = false ∧
    (handle s (PEvent.synthOnStart u)).1.userStopped = true ∧
    (wf (handle s (PEvent.synthOnStart u)).1 es = true →
      (∀ e ∈ es, avoidsRestartTriggers e = true) →
      Obs.recogStart ∉ (run (handle s (PEvent.synthOnStart u)).1 es).2) := by
  have h := stopListening_active
    { s with isSpeaking := true, synthActive := some u,
             synthQueue := s.synthQueue.drop 1 } hini hlis
  refine ⟨?_, rfl, h.1, h.2.1, ?_⟩
  · simp only [handle, onSynthStart]
    exact List.mem_append_right _ h.2.2.2.2
  · intro hwf hav
    have hp : (handle s (PEvent.synthOnStart u)).1.recogPhase ≠
        RecogPhase.starting := by
      simp only [handle, onSynthStart]
      rw [h.2.2.2.1]
      exact recogStopPhase_ne_starting _
    exact quiet_run _ es hwf hav h.2.1 hp

open VM in
/-- Witness for C2 (amended) at the state reached by `trListen`, with the
pending recognition-end event as the continuation during speech. -/
theorem recognition_stopped_within_synthesis_start_witness :
    Obs.recogStop ∈ (handle (run init0 trListen).1 (PEvent.synthOnStart 0)).2 ∧
    Obs.recogStart ∉
      (run (handle (run init0 trListen).1 (PEvent.synthOnStart 0)).1
        [PEvent.recogOnEnd, PEvent.userStop, PEvent.tick 5000]).2 :=
  ⟨(recognition_stopped_within_synthesis_start (run init0 trListen).1 0
      [] (by decide) (by decide)).1,
   (recognition_stopped_within_synthesis_start (run init0 trListen).1 0
      [PEvent.recogOnEnd, PEvent.userStop, PEvent.tick 5000]
      (by decide) (by decide)).2.2.2.2 (by decide) (by decide)⟩

namespace VM

/-- Is an observation the final-transcript callback
(`onSpeechResult(_, true)`)? -/
def isFinalCb : Obs → Bool
  | Obs.speechResult _ true => true
  | _ => false

/-- Number of final-transcript callbacks in a list of observations. -/
def finalCbCount (l : List Obs) : Nat := (l.filter isFinalCb).length

theorem finalCbCount_append (l1 l2 : List Obs) :
    finalCbCount (l1 ++ l2) = finalCbCount l1 + finalCbCount l2 := by
  simp [finalCbCount, List.filter_append]

theorem onResult_handled (s : S) (rs : ResultBatch)
    (h : s.handledSpeech = true) : onResult s rs = (s, []) := by
  simp [onResult, h]

theorem stopListening_handledSpeech (s : S) :
    (stopListening s).1.handledSpeech = s.handledSpeech := by
  by_cases h : s.recognitionInit = true ∧ s.isListening = true <;>
    simp [stopListening, stopAudioVisualization, h]

theorem stopListening_finalCbCount (s : S) :
    finalCbCount (stopListening s).2 = 0 := by
  by_cases h : s.recognitionInit = true ∧ s.isListening = true <;>
    by_cases hv : s.volumeInterval <;> by_cases ha : s.audioStream <;>
    by_cases hc : s.audioCtx <;>
  simp [stopListening, stopAudioVisualization, finalCbCount, isFinalCb,
    h, hv, ha, hc]

theorem onResult_interim (s : S) (rs : ResultBatch)
    (h : s.handledSpeech = false) (hf : finalTranscript rs = "") :
    onResult s rs =
      (resetSilenceTimer s,
        [Obs.speechResult (interimTranscript rs).trim false]) := by
  simp [onResult, h, hf]

theorem onResult_final (s : S) (rs : ResultBatch)
    (h : s.handledSpeech = false) (hf : finalTranscript rs ≠ "") :
    (onResult s rs).1.handledSpeech = true ∧
    finalCbCount (onResult s rs).2 = 1 := by
  constructor
  · simp only [onResult, if_neg (by simp [h] : ¬s.handledSpeech = true),
      if_pos hf]
    rw [stopListening_handledSpeech]
  · simp only [onResult, if_neg (by simp [h] : ¬s.handledSpeech = true),
      if_pos hf]
    rw [show ∀ a l, finalCbCount ([a] ++ l) = finalCbCount [a] + finalCbCount l
        from fun a l => finalCbCount_append [a] l]
    rw [stopListening_finalCbCount]
    simp [finalCbCount, isFinalCb]

/-- Once `handledSpeech` is set, a whole run of further result events is
ignored completely: no state change, no observation. -/
theorem run_results_ignored (s : S) (bs : List ResultBatch)
    (h : s.handledSpeech = true) :
    run s (bs.map PEvent.recogOnResult) = (s, []) := by
  induction bs with
  | nil => simp [run]
  | cons b bs ih =>
    simp only [List.map_cons, run, handle, onResult_handled s b h, ih,
      List.append_nil]

/-- A run of interim-only result events keeps `handledSpeech` clear and
fires no final-transcript callback. -/
theorem run_interim (s : S) (bs : List ResultBatch)
    (h : s.handledSpeech = false) (hbs : ∀ b ∈ bs, finalTranscript b = "") :
    (run s (bs.map PEvent.recogOnResult)).1.handledSpeech = false ∧
    finalCbCount (run s (bs.map PEvent.recogOnResult)).2 = 0 := by
  induction bs generalizing s with
  | nil => simpa [run, finalCbCount] using h
  | cons b bs ih =>
    have hstep := onResult_interim s b h (hbs b (by simp))
    have ihr := ih (resetSilenceTimer s) (by simp [resetSilenceTimer, clearSilenceTimer, h])
      (fun x hx => hbs x (by simp [hx]))
    simp only [List.map_cons, run, handle, hstep]
    refine ⟨ihr.1, ?_⟩
    rw [show ∀ a l, finalCbCount ([a] ++ l) = finalCbCount [a] + finalCbCount l
        from fun a l => finalCbCount_append [a] l]
    rw [ihr.2]
    rfl

end VM

open VM in
/-- **C3.** For every sequence of recognition result events consisting of
interim-only batches followed by a batch with a final transcript and then
arbitrary further result batches, the final-transcript callback fires
exactly once, and every result event after the first final one is ignored
completely: the run equals the run that stops at the final batch. -/
theorem final_transcript_callback_exactly_once (s : S)
    (pre post : List ResultBatch) (fb : ResultBatch)
    (h0 : s.handledSpeech = false)
    (hpre : ∀ b ∈ pre, finalTranscript b = "")
    (hfb : finalTranscript fb ≠ "") :
    finalCbCount (run s ((pre ++ fb :: post).map PEvent.recogOnResult)).2 = 1 ∧
    run s ((pre ++ fb :: post).map PEvent.recogOnResult) =
      run s ((pre ++ [fb]).map PEvent.recogOnResult) := by
  have hsplit : ∀ tail : List ResultBatch,
      run s ((pre ++ tail).map PEvent.recogOnResult) =
        ((run (run s (pre.map PEvent.recogOnResult)).1
            (tail.map PEvent.recogOnResult)).1,
          (run s (pre.map PEvent.recogOnResult)).2 ++
            (run (run s (pre.map PEvent.recogOnResult)).1
              (tail.map PEvent.recogOnResult)).2) := by
    intro tail
    rw [List.map_append, run_append]
  have hp := run_interim s pre h0 hpre
  set s1 := (run s (pre.map PEvent.recogOnResult)).1 with hs1
  have hfinal := onResult_final s1 fb hp.1 hfb
  have hpost := run_results_ignored (onResult s1 fb).1 post hfinal.1
  constructor
  · rw [hsplit (fb :: post), finalCbCount_append]
    have : run s1 ((fb :: post).map PEvent.recogOnResult) =
        ((onResult s1 fb).1, (onResult s1 fb).2 ++ []) := by
      simp only [List.map_cons, run, handle, hpost]
    rw [this]
    simp [hp.2, finalCbCount_append, hfinal.2]
  · rw [hsplit (fb :: post), hsplit [fb]]
    have h1 : run s1 ((fb :: post).map PEvent.recogOnResult) =
        ((onResult s1 fb).1, (onResult s1 fb).2 ++ []) := by
      simp only [List.map_cons, run, handle, hpost]
    have h2 : run s1 ([fb].map PEvent.recogOnResult) =
        ((onResult s1 fb).1, (onResult s1 fb).2 ++ []) := by
      simp only [List.map_cons, List.map_nil, run, handle]
    rw [h1, h2]

open VM in
/-- Witness for C3: two interim batches, a final batch, then two duplicate
result events, from the listening state of `trListen`. -/
theorem final_transcript_callback_exactly_once_witness :
    finalCbCount (run (run init0 trListen).1
      (([[("he", false)], [("hello", false)], [("hello world", true)],
        [("hello world", true)], [("x", false)]] :
          List ResultBatch).map PEvent.recogOnResult)).2 = 1 :=
  (final_transcript_callback_exactly_once (run init0 trListen).1
    [[("he", false)], [("hello", false)]]
    [[("hello world", true)], [("x", false)]] [("hello world", true)]
    (by decide) (by decide) (by decide)).1

namespace VM

theorem stopListening_inv (s : S)
    (hInv : s.recogPhase = RecogPhase.off → s.silenceDeadline = none) :
    (stopListening s).1.recogPhase = RecogPhase.off →
      (stopListening s).1.silenceDeadline = none := by
  rcases stopListening_cases s with ⟨hd, _, _, _⟩ | hno
  · exact fun _ => hd
  · rw [hno]
    exact hInv

theorem startListening_inv (s : S)
    (hInv : s.recogPhase = RecogPhase.off → s.silenceDeadline = none) :
    (startListening s).1.recogPhase = RecogPhase.off →
      (startListening s).1.silenceDeadline = none := by
  intro hoff
  rcases startListening_phase s with hp | hp
  · rw [hp] at hoff
    exact absurd hoff (by simp)
  · rw [hp] at hoff
    rw [startListening_silenceDeadline]
    exact hInv hoff

/-- One enabled step preserves the invariant: whenever the platform
recognition session is off, no silence timeout is pending. -/
theorem inv_step (s : S) (e : PEvent) (hen : enabled s e = true)
    (hInv : s.recogPhase = RecogPhase.off → s.silenceDeadline = none) :
    (handle s e).1.recogPhase = RecogPhase.off →
      (handle s e).1.silenceDeadline = none := by
  cases e with
  | userStart => exact startListening_inv s hInv
  | userStop => exact stopListening_inv s hInv
  | setActive b => exact hInv
  | speak t =>
    by_cases hsy : s.synthSupported = true <;>
      by_cases hc : s.currentUtt.isSome ∧ s.isSpeaking = true <;>
      · simp only [handle, speakCall]
        simp [hsy, hc]
        exact fun h => hInv h
  | stopSpeak =>
    by_cases hg : s.synthSupported = true ∧ s.isSpeaking = true <;>
      · simp only [handle, stopSpeaking]
        simp [hg]
        exact fun h => hInv h
  | recogOnStart =>
    simp [handle, onRecogStart, resetSilenceTimer, clearSilenceTimer]
  | recogOnResult rs =>
    have hph : s.recogPhase ≠ RecogPhase.off := by
      simp only [enabled, decide_eq_true_eq] at hen
      rcases hen with h | h <;> simp [h]
    by_cases hh : s.handledSpeech = true
    · simp only [handle]
      rw [onResult_handled s rs hh]
      exact hInv
    · by_cases hf : finalTranscript rs = ""
      · simp only [handle]
        rw [onResult_interim s rs (by simpa using hh) hf]
        intro hoff
        exact absurd hoff hph
      · simp only [handle, onResult, if_neg hh, if_pos hf]
        exact stopListening_inv _ (fun hoff => absurd hoff hph)
  | recogOnError =>
    simp [handle, onRecogError, stopAudioVisualization]
  | recogOnEnd =>
    have hd : (handle s PEvent.recogOnEnd).1.silenceDeadline = none := by
      simp only [handle, onRecogEnd]
      split_ifs with hg
      · rw [startListening_silenceDeadline]
        rfl
      · rfl
    exact fun _ => hd
  | timerFire =>
    have hd : (handle s PEvent.timerFire).1.silenceDeadline = none := by
      rcases stopListening_cases { s with silenceDeadline := none } with
        ⟨h, _, _, _⟩ | hno
      · exact h
      · simp only [handle, onTimerFire, hno]
    exact fun _ => hd
  | synthOnStart u => exact stopListening_inv _ hInv
  | synthOnEnd u =>
    simp only [handle, onSynthEnd]
    split_ifs with hg
    · exact startListening_inv _ hInv
    · exact hInv
  | synthOnError u => exact hInv
  | tick dt => exact hInv

/-- Trace version of `inv_step`. -/
theorem inv_run (s : S) (es : List PEvent) (hwf : wf s es = true)
    (hInv : s.recogPhase = RecogPhase.off → s.silenceDeadline = none) :
    (run s es).1.recogPhase = RecogPhase.off →
      (run s es).1.silenceDeadline = none := by
  induction es generalizing s with
  | nil => exact hInv
  | cons e es ih =>
    rw [wf, Bool.and_eq_true] at hwf
    exact ih (handle s e).1 hwf.2 (inv_step s e hwf.1 hInv)

/-- Listening session stopped by the host, recognizer end delivered. -/
def trStopEnd : List PEvent := trListen ++ [PEvent.userStop, PEvent.recogOnEnd]

end VM

open VM in
/-- **C5, counterexample.** In the well-formed run `trDupFinal` the last
event is a result event carrying a (duplicate) final transcript, yet after
processing it no fresh full-length timer is pending (`silenceTimer` is
null): the silence watchdog is *not* reset on every interim or final
transcript event. -/
theorem silence_timer_not_reset_on_duplicate_result :
    wf init0 trDupFinal = true ∧
    trDupFinal.getLast? = some (PEvent.recogOnResult [("again", true)]) ∧
    (run init0 trDupFinal).1.silenceDeadline = none := by decide

open VM in
/-- **C5, amended.** The silence watchdog is reset (replaced with a fresh
full-length timer) on every result event processed *before the first final
result of the session*; a non-duplicate final result cancels it together
with the whole session; a result event arriving after the first final one is
ignored outright and in particular does not reset the timer; and over every
well-formed trace, whenever the platform recognition session is off no
timer is pending. -/
theorem silence_timer_reset_and_cancel_policy (s s0 : S) (rs : ResultBatch)
    (es : List PEvent) :
    (s.handledSpeech = false → finalTranscript rs = "" →
      (onResult s rs).1.silenceDeadline = some (s.now + SILENCE_TIMEOUT)) ∧
    (s.handledSpeech = false → finalTranscript rs ≠ "" →
      s.recognitionInit = true → s.isListening = true →
      (onResult s rs).1.silenceDeadline = none) ∧
    (s.handledSpeech = true → onResult s rs = (s, [])) ∧
    ((s0.recogPhase = RecogPhase.off → s0.silenceDeadline = none) →
      wf s0 es = true →
      (run s0 es).1.recogPhase = RecogPhase.off →
      (run s0 es).1.silenceDeadline = none) := by
  refine ⟨fun h hf => ?_, fun h hf h1 h2 => ?_,
    fun h => onResult_handled s rs h,
    fun hInv hwf => inv_run s0 es hwf hInv⟩
  · rw [onResult_interim s rs h hf]
    rfl
  · simp only [onResult, if_neg (by simp [h] : ¬s.handledSpeech = true),
      if_pos hf]
    have hst := stopListening_active
      { resetSilenceTimer s with handledSpeech := true } h1 h2
    exact hst.2.2.1

open VM in
/-- Witness for C5 (amended): a live interim result resets the timer to
`now + 3000`; a final result while listening cancels it; duplicate results
are no-ops; and after a stopped session ends (`trStopEnd`), the recognizer
is off and no timer is pending. -/
theorem silence_timer_reset_and_cancel_policy_witness :
    (onResult (run init0 trListen).1 [("he", false)]).1.silenceDeadline =
      some ((run init0 trListen).1.now + SILENCE_TIMEOUT) ∧
    (onResult (run init0 trListen).1 [("hi", true)]).1.silenceDeadline = none ∧
    onResult (run init0 trDupFinal).1 [("zz", true)] =
      ((run init0 trDupFinal).1, []) ∧
    (run init0 trStopEnd).1.silenceDeadline = none :=
  ⟨(silence_timer_reset_and_cancel_policy (run init0 trListen).1 init0
      [("he", false)] []).1 (by decide) (by decide),
   (silence_timer_reset_and_cancel_policy (run init0 trListen).1 init0
      [("hi", true)] []).2.1 (by decide) (by decide) (by decide) (by decide),
   (silence_timer_reset_and_cancel_policy (run init0 trDupFinal).1 init0
      [("zz", true)] []).2.2.1 (by decide),
   (silence_timer_reset_and_cancel_policy init0 init0 [] trStopEnd).2.2.2
      (by decide) (by decide) (by decide)⟩
